import Mathlib

/-!
Verification of the sinkingyachts Go client library against its design
specification.  The definitions below are a shallow embedding of the Go
source: the cache state of `Client` (client.go) becomes an explicit record,
each method becomes a pure function over that record (time.Now() and the
network transport become explicit parameters), and channel occupancy is
tracked as explicit counters.
-/

namespace SinkingYachts

/-- One notification channel as issued by Client.UpdateChannel
(client.go:189-196).  `pending` is the number of buffered, unreceived
notifications, `cap` the buffer capacity (the source allocates the channel
with capacity 2), `closed` whether close() has been called on it. -/
structure Chan where
  pending : Nat
  cap : Nat
  closed : Bool
deriving DecidableEq, Repr

/-- Errors surfaced by the client.  `alreadyListening` corresponds to
fmt.Errorf("already listening for updates") in client.go:146; `transport`
stands for any error value returned by the RawClient network layer. -/
inductive Err where
  | alreadyListening
  | transport (msg : String)
deriving DecidableEq, Repr

/-- DomainUpdate (types.go): one atomic batch of adds (Add = true) or
deletes (Add = false). -/
structure DomainUpdate where
  Add : Bool
  Domains : List String
deriving DecidableEq, Repr

/-- The on-disk save format (types.go): last_updated timestamp and the
domain list.  Timestamps are modelled as integers (nanoseconds, the unit
of Go's time.Duration). -/
structure save where
  LastUpdated : Int
  Domains : List String
deriving DecidableEq, Repr

/-- The state of Client (client.go:13-21).  `domains` is the key set of the
Go map[string]empty; `lastUpdated` a timestamp in nanoseconds;
`streaming` and `cancelFunc` the single-flight flag and whether a
cancellation function is currently set; `issued` the history of
notification channels handed out by UpdateChannel, most recent first (the
Go field updateChan is the head; older, replaced channels are kept here so
that closing them is observable). -/
structure ClientState where
  domains : Finset String
  lastUpdated : Int
  streaming : Bool
  cancelFunc : Bool
  issued : List Chan
deriving DecidableEq

/-- The zero value of Client, as produced by New (client.go:23-30):
empty domain map, zero time, not streaming, no channels. -/
def zeroClient : ClientState :=
  { domains := ∅, lastUpdated := 0, streaming := false,
    cancelFunc := false, issued := [] }

/-- Client.Check (client.go:34-39): exact membership test on the domain map. -/
def Check (c : ClientState) (domain : String) : Bool :=
  decide (domain ∈ c.domains)

/-- Go strings.Split(s, ".") restricted to the single-character separator
used by generateVariants: splits around every occurrence of the dot,
yielding one (possibly empty) part per gap, and a single part when the
separator never occurs.  strings.Split("", ".") is the one-element list
containing the empty string. -/
def splitDot : List Char → List (List Char)
  | [] => [[]]
  | ch :: rest =>
    match splitDot rest with
    | [] => [[]]
    | h :: t => if ch = '.' then [] :: h :: t else (ch :: h) :: t

/-- Go strings.Join(parts, "."): interleaves the parts with dots. -/
def joinDot : List (List Char) → List Char
  | [] => []
  | [p] => p
  | p :: rest => p ++ '.' :: joinDot rest

/-- generateVariants (client.go:255-262): split the domain on ".", then for
i from 0 to len(parts)-2 inclusive emit join(parts[i:], "."). -/
def generateVariants (domain : String) : List String :=
  let parts := splitDot domain.toList
  (List.range (parts.length - 1)).map
    (fun i => String.mk (joinDot (parts.drop i)))

/-- The loop body of Client.FuzzyCheck (client.go:44-51): test each variant
with Check, returning true on the first hit (short-circuit). -/
def fuzzyLoop (c : ClientState) : List String → Bool
  | [] => false
  | part :: rest => if Check c part then true else fuzzyLoop c rest

/-- Client.FuzzyCheck (client.go:44-51). -/
def FuzzyCheck (c : ClientState) (domain : String) : Bool :=
  fuzzyLoop c (generateVariants domain)

theorem fuzzyLoop_eq_any (c : ClientState) (l : List String) :
    fuzzyLoop c l = l.any (fun v => Check c v) := by
  induction l with
  | nil => rfl
  | cons v rest ih =>
    cases h : Check c v <;> simp [fuzzyLoop, h, ih]

/-- C1: FuzzyCheck tests Check against exactly the variant sequence produced
by generateVariants (suffix-dropping, short-circuiting on the first member),
and generateVariants maps the documented examples to the documented variant
lists. -/
theorem fuzzyCheck_uses_variant_sequence :
    (∀ c d, FuzzyCheck c d = (generateVariants d).any (fun v => Check c v)) ∧
    generateVariants "example.com" = ["example.com"] ∧
    generateVariants "foo.bar.example.com" =
      ["foo.bar.example.com", "bar.example.com", "example.com"] ∧
    generateVariants "foo" = [] ∧
    generateVariants "" = [] ∧
    generateVariants "foo.bar..example.com" =
      ["foo.bar..example.com", "bar..example.com", ".example.com", "example.com"] ∧
    generateVariants "foo.example.com/" = ["foo.example.com/", "example.com/"] :=
  ⟨fun c d => fuzzyLoop_eq_any c (generateVariants d),
   by decide, by decide, by decide, by decide, by decide, by decide⟩

theorem splitDot_no_dot : ∀ l : List Char, '.' ∉ l → splitDot l = [l] := by
  intro l h
  induction l with
  | nil => rfl
  | cons ch rest ih =>
    simp only [List.mem_cons, not_or] at h
    simp only [splitDot, ih h.2]
    rw [if_neg (fun hc => h.1 hc.symm)]

theorem generateVariants_no_dot (d : String) (h : '.' ∉ d.toList) :
    generateVariants d = [] := by
  have hs : splitDot d.data = [d.data] := splitDot_no_dot d.toList h
  simp [generateVariants, hs]

/-- A cache state whose membership consists of the single dot-free string
"foo"; used to exhibit that FuzzyCheck never tests the input itself. -/
def fooOnly : ClientState :=
  { domains := {"foo"}, lastUpdated := 0, streaming := false,
    cancelFunc := false, issued := [] }

/-- C10: for every cache state and every input containing no dot (including
the empty string), FuzzyCheck returns false, even when Check of that exact
string returns true, because the variant sequence is empty. -/
theorem fuzzyCheck_false_without_dot :
    (∀ c d, '.' ∉ d.toList → FuzzyCheck c d = false) ∧
    Check fooOnly "foo" = true ∧ FuzzyCheck fooOnly "foo" = false := by
  refine ⟨fun c d h => ?_, by decide, by decide⟩
  unfold FuzzyCheck
  rw [generateVariants_no_dot d h]
  rfl

/-- Witness: the dot-free hypothesis is satisfiable; FuzzyCheck on "bar"
against the fooOnly cache is false. -/
theorem fuzzyCheck_false_without_dot_witness : FuzzyCheck fooOnly "bar" = false :=
  fuzzyCheck_false_without_dot.1 fooOnly "bar" (by decide)

/-- Client.sendUpdate (client.go:200-208): if no update channel is set,
do nothing; otherwise perform a non-blocking send, which succeeds exactly
when the buffer has room and is silently dropped otherwise.  The current
channel is the head of `issued`. -/
def sendUpdate (c : ClientState) : ClientState :=
  match c.issued with
  | [] => c
  | ch :: rest =>
    if ch.pending < ch.cap then
      { c with issued := { ch with pending := ch.pending + 1 } :: rest }
    else c

/-- Client.UpdateChannel (client.go:189-196): close the previously issued
channel if any, then allocate a fresh channel of capacity 2 and make it
current. -/
def UpdateChannel (c : ClientState) : ClientState :=
  match c.issued with
  | [] => { c with issued := [{ pending := 0, cap := 2, closed := false }] }
  | ch :: rest =>
    { c with issued :=
        { pending := 0, cap := 2, closed := false } ::
        { ch with closed := true } :: rest }

/-- Client.applyMod (client.go:212-220): insert every domain of the batch
when Add is true, delete every domain otherwise. -/
def applyMod (s : Finset String) (mod : DomainUpdate) : Finset String :=
  mod.Domains.foldl (fun acc d => if mod.Add then insert d acc else acc.erase d) s

/-- Client.FullSync (client.go:73-88).  The transport call c.r.All() is
modelled by its result `resp`; time.Now() by `now`.  On transport error the
error is returned and the state untouched; on success lastUpdated is set to
now, the domain map is rebuilt from scratch from the response, and a
notification is sent. -/
def FullSync (c : ClientState) (now : Int) (resp : Except Err (List String)) :
    Option Err × ClientState :=
  match resp with
  | Except.error e => (some e, c)
  | Except.ok ds =>
    let c1 := { c with lastUpdated := now }
    let dMap := ds.foldl (fun m d => insert d m) (∅ : Finset String)
    let c2 := { c1 with domains := dMap }
    (none, sendUpdate c2)

/-- Nanoseconds per second; Go durations are integer nanosecond counts. -/
def nsPerSec : Int := 1000000000

/-- Exact rounding-up integer division for a positive divisor: the
whole-seconds rounded-up value that RawClient.After's doc comment
("anything with finer will be rounded up", helper.go:264) promises. -/
def ceilDiv (a b : Int) : Int := -((-a) / b)

/-- Fueled binary length of a natural number: 0 for 0, otherwise
floor(log2 n) + 1.  The fuel of 1200 covers every magnitude below 2^1200,
far beyond the finite range of binary64. -/
def bitlenGo : Nat → Nat → Nat
  | 0, _ => 0
  | _ + 1, 0 => 0
  | f + 1, n + 1 => bitlenGo f ((n + 1) / 2) + 1

def bitlen (n : Nat) : Nat := bitlenGo 1200 n

/-- The binade of a positive rational p/q: the integer e with
2^e ≤ p/q < 2^(e+1). -/
def ratExp (p q : Nat) : Int :=
  let d : Int := (bitlen p : Int) - (bitlen q : Int)
  if 0 ≤ d then (if q * 2 ^ d.toNat ≤ p then d else d - 1)
  else (if q ≤ p * 2 ^ (-d).toNat then d else d - 1)

/-- IEEE-754 binary64 rounding (round to nearest, ties to even) of the
positive rational p/q, in the normal range: the 53-bit significand n2 with
2^52 ≤ n2 ≤ 2^53 and the binade e; the rounded value is n2 * 2^(e-52).
Go float64 arithmetic performs exactly this rounding on every operation;
the durations arising in RawClient.After are far inside the normal range,
so overflow and subnormals are unreachable and not modelled. -/
def roundPosRat (p q : Nat) : Int × Int :=
  let e := ratExp p q
  let s := 52 - e
  let P := if 0 ≤ s then p * 2 ^ s.toNat else p
  let Q := if 0 ≤ s then q else q * 2 ^ (-s).toNat
  let n := P / Q
  let rem := P % Q
  let n2 := if 2 * rem < Q then n else if Q < 2 * rem then n + 1
            else if n % 2 = 0 then n else n + 1
  ((n2 : Int), e - 52)

/-- binary64 rounding of the signed rational p/q (q > 0), as a dyadic pair
(m, k) of value m * 2^k. -/
def roundRatZ (p : Int) (q : Nat) : Int × Int :=
  if p = 0 then (0, 0)
  else
    let pr := roundPosRat p.natAbs q
    (if p < 0 then -pr.1 else pr.1, pr.2)

/-- Correctly rounded binary64 addition of two dyadic values: the exact sum
is formed over a common power-of-two denominator and rounded once, which is
what IEEE addition does. -/
def addRound (x y : Int × Int) : Int × Int :=
  let k := if x.2 ≤ y.2 then x.2 else y.2
  let M := x.1 * ((2 ^ (x.2 - k).toNat : Nat) : Int) +
           y.1 * ((2 ^ (y.2 - k).toNat : Nat) : Int)
  if 0 ≤ k then roundRatZ (M * ((2 ^ k.toNat : Nat) : Int)) 1
  else roundRatZ M (2 ^ (-k).toNat)

/-- Ceiling of a dyadic value m * 2^k, as math.Ceil computes it on binary64
(exact, and the int conversion is the identity on integral in-range
values). -/
def ceilDyadic (x : Int × Int) : Int :=
  if 0 ≤ x.2 then x.1 * ((2 ^ x.2.toNat : Nat) : Int)
  else -((-x.1).ediv ((2 ^ (-x.2).toNat : Nat) : Int))

/-- Go time.Duration.Seconds() for a duration of d nanoseconds:
float64(d / 1e9) + float64(d % 1e9)/1e9, with Go's truncating int64
division and every operation rounded to binary64.  float64(nsec) is exact
since the remainder's magnitude is below 2^30, so converting it and then
dividing by the exactly representable 1e9 is one correctly rounded
division of exact operands. -/
def goSeconds (d : Int) : Int × Int :=
  addRound (roundRatZ (Int.tdiv d 1000000000) 1)
           (roundRatZ (Int.tmod d 1000000000) 1000000000)

/-- RawClient.After (helper.go:265-267):
int(math.Ceil(time.Since(after).Seconds())), the window in seconds passed
to RawClient.Recent, computed through float64 arithmetic. -/
def afterSeconds (now after : Int) : Int := ceilDyadic (goSeconds (now - after))

/-- Client.Update (client.go:91-106).  The RawClient.Recent transport call
is modelled by the oracle `recent` from window seconds to a result; the
window is computed by RawClient.After from lastUpdated minus one minute.
On success, lastUpdated is set to now, the returned batches are applied in
order, and a notification is sent when at least one batch arrived. -/
def Update (c : ClientState) (now : Int)
    (recent : Int → Except Err (List DomainUpdate)) : Option Err × ClientState :=
  match recent (afterSeconds now (c.lastUpdated - 60 * nsPerSec)) with
  | Except.error e => (some e, c)
  | Except.ok mods =>
    let c1 := { c with lastUpdated := now }
    let c2 := { c1 with domains := mods.foldl applyMod c1.domains }
    (none, if mods.length > 0 then sendUpdate c2 else c2)

/-- Client.applyLiveUpdates (client.go:132-138): under the lock, set
lastUpdated to now, apply the single batch, and notify. -/
def applyLiveUpdates (c : ClientState) (now : Int) (mod : DomainUpdate) :
    ClientState :=
  let c1 := { c with lastUpdated := now }
  let c2 := { c1 with domains := applyMod c1.domains mod }
  sendUpdate c2

/-- Client.UnmarshalJSON (client.go:237-250), given an already-parsed save
record: lastUpdated becomes the snapshot timestamp and the domain map is
rebuilt from the snapshot's domain list.  Other fields are untouched. -/
def UnmarshalJSON (c : ClientState) (sf : save) : ClientState :=
  { c with lastUpdated := sf.LastUpdated,
           domains := sf.Domains.foldl (fun m d => insert d m) (∅ : Finset String) }

/-- ReadCacheFrom (helper.go:11-28): unmarshal the snapshot into a fresh
zero-valued Client, then copy lastUpdated and domains into the target
client under its lock. -/
def ReadCacheFrom (c : ClientState) (sf : save) : ClientState :=
  let data := UnmarshalJSON zeroClient sf
  { c with lastUpdated := data.lastUpdated, domains := data.domains }

/-- Client.listenForUpdates (client.go:141-166).  If the single-flight flag
is already set, checkStreaming returns the "already listening" error and
nothing is modified.  Otherwise the flag and a cancellation function are
set, the feed runs (its outcome is the parameter `feedResult`), and the
deferred cleanup clears the flag and the cancellation function before the
feed's outcome is returned. -/
def listenForUpdates (c : ClientState) (feedResult : Option Err) :
    Option Err × ClientState :=
  if c.streaming then (some Err.alreadyListening, c)
  else
    let c1 := { c with streaming := true, cancelFunc := true }
    (feedResult, { c1 with streaming := false, cancelFunc := false })

theorem foldl_insert_eq_union (l : List String) (s : Finset String) :
    l.foldl (fun m d => insert d m) s = s ∪ l.toFinset := by
  induction l generalizing s with
  | nil => simp
  | cons d t ih =>
    simp only [List.foldl_cons, ih, List.toFinset_cons, Finset.union_insert,
      Finset.insert_union]

theorem sendUpdate_preserves_core (c : ClientState) :
    (sendUpdate c).domains = c.domains ∧
    (sendUpdate c).lastUpdated = c.lastUpdated ∧
    (sendUpdate c).streaming = c.streaming ∧
    (sendUpdate c).cancelFunc = c.cancelFunc := by
  unfold sendUpdate
  rcases c.issued with _ | ⟨ch, rest⟩
  · exact ⟨rfl, rfl, rfl, rfl⟩
  · dsimp only
    by_cases h : ch.pending < ch.cap <;> simp [h]

/-- C2: FullSync on transport success replaces the membership wholesale with
exactly the returned domains, sets lastUpdated to the current time, and
returns no error; on transport failure it returns that error and leaves the
state completely unchanged. -/
theorem fullSync_wholesale_or_untouched :
    (∀ c now ds,
      (FullSync c now (Except.ok ds)).1 = none ∧
      (FullSync c now (Except.ok ds)).2.lastUpdated = now ∧
      (∀ d, d ∈ (FullSync c now (Except.ok ds)).2.domains ↔ d ∈ ds)) ∧
    (∀ c now e, FullSync c now (Except.error e) = (some e, c)) := by
  constructor
  · intro c now ds
    refine ⟨rfl, ?_, ?_⟩
    · exact (sendUpdate_preserves_core _).2.1
    · intro d
      show d ∈ (sendUpdate _).domains ↔ _
      rw [(sendUpdate_preserves_core _).1]
      simp [foldl_insert_eq_union]
  · intro c now e
    rfl

/-- A client whose last successful synchronization was at time 60 s, so
that lastUpdated minus the one-minute overlap is 0: an Update at
now = 16777216 s + 1 ns then asks After for the seconds of a duration of
2^24 seconds plus one nanosecond, and now - lastUpdated + 60 s is that
same duration. -/
def staleClient : ClientState :=
  { domains := ∅, lastUpdated := 60 * nsPerSec, streaming := false,
    cancelFunc := false, issued := [] }

/-- C3 (code bug): at a gap of 2^24 seconds plus one nanosecond, the
float64 seconds computation of RawClient.After loses the sub-second
remainder (half an ulp of binary64 at 2^24 is about 1.86 ns, more than the
1 ns remainder), so Update consults the transport with a window of
16777216 seconds: strictly less than the claimed lower bound of
now - lastUpdated + 60 s, whose whole-seconds rounded-up value — the bound
After's own doc comment promises — is 16777217.  The rest of the claim
holds: on success Update stamps the current time and applies the returned
batches in the order received. -/
theorem update_window_one_second_short :
    (∀ recen recen' : Int → Except Err (List DomainUpdate),
      recen 16777216 = recen' 16777216 →
      Update staleClient 16777216000000001 recen =
        Update staleClient 16777216000000001 recen') ∧
    afterSeconds 16777216000000001 (staleClient.lastUpdated - 60 * nsPerSec) =
      16777216 ∧
    nsPerSec * afterSeconds 16777216000000001
        (staleClient.lastUpdated - 60 * nsPerSec) <
      16777216000000001 - staleClient.lastUpdated + 60 * nsPerSec ∧
    ceilDiv (16777216000000001 - staleClient.lastUpdated + 60 * nsPerSec)
      nsPerSec = 16777217 ∧
    (∀ c now recent mods,
      recent (afterSeconds now (c.lastUpdated - 60 * nsPerSec)) = Except.ok mods →
      (Update c now recent).1 = none ∧
      (Update c now recent).2.lastUpdated = now ∧
      (Update c now recent).2.domains = mods.foldl applyMod c.domains) := by
  refine ⟨?_, by decide, by decide, by decide, ?_⟩
  · intro recen recen' h
    unfold Update
    rw [(by decide : afterSeconds 16777216000000001
      (staleClient.lastUpdated - 60 * nsPerSec) = 16777216), h]
  · intro c now recent mods h
    unfold Update
    rw [h]
    refine ⟨rfl, ?_, ?_⟩
    · dsimp only
      by_cases hl : mods.length > 0 <;>
        simp [hl, (sendUpdate_preserves_core _).2.1]
    · dsimp only
      by_cases hl : mods.length > 0 <;>
        simp [hl, (sendUpdate_preserves_core _).1]

/-- Witness for C3's theorem: two oracles that agree at window 16777216
(but differ elsewhere) give the same Update result on the stale client,
and a concrete successful Update stamps the time and folds the batch in. -/
theorem update_window_one_second_short_witness :
    Update staleClient 16777216000000001
        (fun _ => Except.ok [DomainUpdate.mk true ["a"]]) =
      Update staleClient 16777216000000001
        (fun w => if w = 16777216 then Except.ok [DomainUpdate.mk true ["a"]]
                  else Except.error (Err.transport "boom")) ∧
    (Update zeroClient 5 (fun _ => Except.ok [DomainUpdate.mk true ["a"]])).1 =
      none :=
  ⟨update_window_one_second_short.1 _ _ rfl,
   (update_window_one_second_short.2.2.2.2 zeroClient 5
     (fun _ => Except.ok [DomainUpdate.mk true ["a"]])
     [DomainUpdate.mk true ["a"]] rfl).1⟩

/-- C4: while a live-feed session is active (streaming flag set), a second
listenForUpdates call fails with the AlreadyStreaming error and returns the
state bit-for-bit unchanged: membership, lastUpdated, the streaming flag and
the cancellation trigger are all untouched. -/
theorem listen_single_flight (c : ClientState) (fr : Option Err)
    (h : c.streaming = true) :
    listenForUpdates c fr = (some Err.alreadyListening, c) := by
  simp [listenForUpdates, h]

/-- A client with an active live-feed session. -/
def streamingClient : ClientState :=
  { domains := {"a"}, lastUpdated := 7, streaming := true,
    cancelFunc := true, issued := [] }

/-- Witness for C4 at a concrete streaming client. -/
theorem listen_single_flight_witness :
    listenForUpdates streamingClient none = (some Err.alreadyListening, streamingClient) :=
  listen_single_flight streamingClient none rfl

/-- Counterexample to C5 as stated: loading a persisted snapshot via
UnmarshalJSON overwrites lastUpdated with the snapshot's timestamp, which
may be strictly older than the current one, so lastUpdated is not
monotonically non-decreasing across every operation sequence. -/
theorem lastUpdated_not_monotone_on_load :
    (UnmarshalJSON (ClientState.mk ∅ 5 false false []) (save.mk 3 [])).lastUpdated <
      (ClientState.mk ∅ 5 false false []).lastUpdated := by
  decide

/-- C5 (amended): lastUpdated is non-decreasing across FullSync, Update and
live-feed update application whenever the clock reading supplied is no
earlier than the stored lastUpdated; but UnmarshalJSON and ReadCacheFrom
set lastUpdated to the snapshot's stored timestamp unconditionally, so
monotonicity does not extend to snapshot loading. -/
theorem lastUpdated_monotone_sync_only :
    (∀ c now resp, c.lastUpdated ≤ now →
      c.lastUpdated ≤ (FullSync c now resp).2.lastUpdated) ∧
    (∀ c now recent, c.lastUpdated ≤ now →
      c.lastUpdated ≤ (Update c now recent).2.lastUpdated) ∧
    (∀ c now mod, c.lastUpdated ≤ now →
      c.lastUpdated ≤ (applyLiveUpdates c now mod).lastUpdated) ∧
    (∀ c sf, (UnmarshalJSON c sf).lastUpdated = sf.LastUpdated) ∧
    (∀ c sf, (ReadCacheFrom c sf).lastUpdated = sf.LastUpdated) := by
  refine ⟨?_, ?_, ?_, fun c sf => rfl, fun c sf => rfl⟩
  · intro c now resp h
    rcases resp with e | ds
    · exact le_refl _
    · show c.lastUpdated ≤ (sendUpdate _).lastUpdated
      rw [(sendUpdate_preserves_core _).2.1]
      exact h
  · intro c now recent h
    unfold Update
    rcases hr : recent (afterSeconds now (c.lastUpdated - 60 * nsPerSec)) with e | mods
    · exact le_refl _
    · dsimp only
      by_cases hl : mods.length > 0 <;>
        simp [hl, (sendUpdate_preserves_core _).2.1, h]
  · intro c now mod h
    unfold applyLiveUpdates
    rw [(sendUpdate_preserves_core _).2.1]
    exact h

/-- Witness for C5 (amended): concrete instances of each conjunct. -/
theorem lastUpdated_monotone_sync_only_witness :
    zeroClient.lastUpdated ≤
      (FullSync zeroClient 3 (Except.ok ["a"])).2.lastUpdated ∧
    zeroClient.lastUpdated ≤
      (applyLiveUpdates zeroClient 2 (DomainUpdate.mk true ["a"])).lastUpdated :=
  ⟨lastUpdated_monotone_sync_only.1 zeroClient 3 (Except.ok ["a"]) (by decide),
   lastUpdated_monotone_sync_only.2.2.1 zeroClient 2 (DomainUpdate.mk true ["a"])
     (by decide)⟩

/-- C8: sendUpdate performs a non-blocking send on the current notification
channel: with room in the buffer the pending count grows by one, with a full
buffer the notification is silently dropped and the state is unchanged (and
with no channel set nothing happens); UpdateChannel closes the previously
issued channel and hands back a fresh open channel of capacity 2. -/
theorem notifier_drop_and_replace :
    (∀ c ch rest, c.issued = ch :: rest → ch.pending < ch.cap →
      (sendUpdate c).issued =
        Chan.mk (ch.pending + 1) ch.cap ch.closed :: rest) ∧
    (∀ c ch rest, c.issued = ch :: rest → ¬ ch.pending < ch.cap →
      sendUpdate c = c) ∧
    (∀ c, c.issued = [] → sendUpdate c = c) ∧
    (∀ c ch rest, c.issued = ch :: rest →
      (UpdateChannel c).issued =
        Chan.mk 0 2 false :: Chan.mk ch.pending ch.cap true :: rest) ∧
    (∀ c, c.issued = [] → (UpdateChannel c).issued = [Chan.mk 0 2 false]) := by
  refine ⟨?_, ?_, ?_, ?_, ?_⟩
  · intro c ch rest h hlt
    simp [sendUpdate, h, hlt]
  · intro c ch rest h hge
    simp [sendUpdate, h, hge]
  · intro c h
    simp [sendUpdate, h]
  · intro c ch rest h
    simp [UpdateChannel, h]
  · intro c h
    simp [UpdateChannel, h]

/-- A client whose current notification channel is full (2 pending of
capacity 2). -/
def fullChanClient : ClientState :=
  { domains := ∅, lastUpdated := 0, streaming := false,
    cancelFunc := false, issued := [Chan.mk 2 2 false] }

/-- Witness for C8: on a full capacity-2 channel the notification is
dropped and the state is unchanged; subscribing again closes the old
channel and issues a fresh one. -/
theorem notifier_drop_and_replace_witness :
    sendUpdate fullChanClient = fullChanClient ∧
    (UpdateChannel fullChanClient).issued =
      Chan.mk 0 2 false :: Chan.mk 2 2 true :: [] :=
  ⟨notifier_drop_and_replace.2.1 fullChanClient (Chan.mk 2 2 false) [] rfl (by decide),
   notifier_drop_and_replace.2.2.2.1 fullChanClient (Chan.mk 2 2 false) [] rfl⟩

/-- The possible outputs of Client.MarshalJSON (client.go:223-234): the
current lastUpdated together with the domain map's keys listed in Go's
unspecified map-iteration order — each key exactly once, in some order. -/
def MarshalResult (c : ClientState) (sf : save) : Prop :=
  sf.LastUpdated = c.lastUpdated ∧ sf.Domains.Nodup ∧
    sf.Domains.toFinset = c.domains

instance (c : ClientState) (sf : save) : Decidable (MarshalResult c sf) := by
  unfold MarshalResult
  infer_instance

/-- C9: for every non-empty client state, deserializing any serialization of
it (UnmarshalJSON after MarshalJSON, into an arbitrary receiver, with no
intervening mutation) reproduces exactly the same membership set and the
same lastUpdated timestamp, independent of the physical order of the
serialized domain sequence. -/
theorem marshal_roundtrip (c c0 : ClientState) (sf : save)
    (hne : c.domains.Nonempty) (hm : MarshalResult c sf) :
    (UnmarshalJSON c0 sf).domains = c.domains ∧
    (UnmarshalJSON c0 sf).lastUpdated = c.lastUpdated := by
  constructor
  · show sf.Domains.foldl (fun m d => insert d m) ∅ = c.domains
    rw [foldl_insert_eq_union, Finset.empty_union]
    exact hm.2.2
  · exact hm.1

/-- Witness for C9: a two-domain state serialized in reversed order loads
back to the identical membership and timestamp. -/
theorem marshal_roundtrip_witness :
    (UnmarshalJSON zeroClient (save.mk 7 ["b", "a"])).domains =
      (ClientState.mk {"a", "b"} 7 false false []).domains ∧
    (UnmarshalJSON zeroClient (save.mk 7 ["b", "a"])).lastUpdated =
      (ClientState.mk {"a", "b"} 7 false false []).lastUpdated :=
  marshal_roundtrip (ClientState.mk {"a", "b"} 7 false false []) zeroClient
    (save.mk 7 ["b", "a"]) (by decide) (by decide)

/-- Events relevant to the lock discipline of the two sync operations:
acquiring the mutex, releasing it, and performing a transport (network)
call. -/
inductive LockEv where
  | lock
  | unlock
  | transportCall
deriving DecidableEq

/-- The event order of Client.FullSync (client.go:73-88), by source line:
c.r.All() runs first; on its error the function returns before ever
locking; on success the mutex is locked, the state merged, and the deferred
unlock runs at return. -/
def fullSyncEvents : Bool → List LockEv
  | true => [LockEv.transportCall, LockEv.lock, LockEv.unlock]
  | false => [LockEv.transportCall]

/-- The event order of Client.Update (client.go:91-106), by source line:
c.m.Lock() runs first (line 92), then c.r.After performs the network call
(line 94) while the mutex is held; the deferred unlock runs at return on
both the error and the success path. -/
def updateEvents : Bool → List LockEv
  | _ => [LockEv.lock, LockEv.transportCall, LockEv.unlock]

/-- Checks that every transport call in the trace happens at lock depth
zero, i.e. while the mutex is not held. -/
def noTransportUnderLock : Nat → List LockEv → Bool
  | _, [] => true
  | d, LockEv.lock :: r => noTransportUnderLock (d + 1) r
  | d, LockEv.unlock :: r => noTransportUnderLock (d - 1) r
  | d, LockEv.transportCall :: r => decide (d = 0) && noTransportUnderLock d r

/-- Counterexample to C6 as stated: Update's transport call (c.r.After,
client.go:94) executes while the mutex acquired on client.go:92 is still
held, so not every transport call of FullSync and Update runs outside the
lock. -/
theorem update_transport_under_lock :
    noTransportUnderLock 0 (updateEvents true) = false := by
  decide

/-- C6 (amended): FullSync's transport call executes while the lock is not
held on both its paths, but Update's transport call executes while the lock
is held, so a blocked Update network call does block concurrent cache
reads until it returns. -/
theorem transport_lock_discipline :
    (∀ ok, noTransportUnderLock 0 (fullSyncEvents ok) = true) ∧
    (∀ ok, noTransportUnderLock 0 (updateEvents ok) = false) := by
  constructor <;> intro ok <;> cases ok <;> decide

/-- How the AutoSync select loop (helper.go:95-119) can exit. -/
inductive ExitKind where
  | modClosed
  | updateErr
  | fullSyncErr
  | streamErr
  | cancelled
deriving DecidableEq

/-- One iteration's wakeup of the AutoSync select loop, carrying the data
the corresponding branch consumes: the internal mod channel closing or
delivering a batch, the recent or full-sync ticker firing (with the current
time and the transport's answer for that call), the stream goroutine's
result arriving, or external cancellation. -/
inductive LoopEvent where
  | modClosed
  | modRecv (now : Int) (mod : DomainUpdate)
  | recentTick (now : Int) (recent : Int → Except Err (List DomainUpdate))
  | fullTick (now : Int) (resp : Except Err (List String))
  | streamResult (e : Option Err)
  | ctxDone

/-- In AutoSync (helper.go:71), `var stream chan error` declares the stream
channel and no statement ever assigns a channel to it, so it remains the
nil channel.  In Go, a select case that receives from a nil channel can
never be chosen (and the goroutine's send on it at helper.go:75 blocks
forever), so the streamResult wakeup can never occur. -/
def eventSelectable : LoopEvent → Bool
  | LoopEvent.streamResult _ => false
  | _ => true

/-- One iteration of the AutoSync select loop body (helper.go:95-119):
either the loop continues with a new state, or it exits with the recorded
exit branch, error value and final state. -/
def autoSyncStep (c : ClientState) :
    LoopEvent → ClientState ⊕ (ExitKind × Option Err × ClientState)
  | LoopEvent.modClosed => Sum.inr (ExitKind.modClosed, none, c)
  | LoopEvent.modRecv now mod => Sum.inl (applyLiveUpdates c now mod)
  | LoopEvent.recentTick now recent =>
    match Update c now recent with
    | (some e, c1) => Sum.inr (ExitKind.updateErr, some e, c1)
    | (none, c1) => Sum.inl c1
  | LoopEvent.fullTick now resp =>
    match FullSync c now resp with
    | (some e, c1) => Sum.inr (ExitKind.fullSyncErr, some e, c1)
    | (none, c1) => Sum.inl c1
  | LoopEvent.streamResult (some e) => Sum.inr (ExitKind.streamErr, some e, c)
  | LoopEvent.streamResult none => Sum.inl c
  | LoopEvent.ctxDone => Sum.inr (ExitKind.cancelled, none, c)

/-- The AutoSync select loop run over a finite wakeup sequence; none means
the loop is still running after consuming the sequence. -/
def autoSyncLoop (c : ClientState) :
    List LoopEvent → Option (ExitKind × Option Err × ClientState)
  | [] => none
  | ev :: evs =>
    match autoSyncStep c ev with
    | Sum.inl c1 => autoSyncLoop c1 evs
    | Sum.inr r => some r

/-- AutoSync (helper.go:70-120): the initial FullSync, whose error is
returned immediately, followed by the select loop. -/
def AutoSync (c : ClientState) (now0 : Int) (resp0 : Except Err (List String))
    (events : List LoopEvent) : Option (ExitKind × Option Err × ClientState) :=
  match FullSync c now0 resp0 with
  | (some e, c1) => some (ExitKind.fullSyncErr, some e, c1)
  | (none, c1) => autoSyncLoop c1 events

theorem autoSyncLoop_no_stream_exit (c : ClientState) (events : List LoopEvent)
    (hsel : ∀ ev ∈ events, eventSelectable ev = true) :
    ∀ r, autoSyncLoop c events = some r → r.1 ≠ ExitKind.streamErr := by
  induction events generalizing c with
  | nil =>
    intro r hr
    exact absurd hr (by simp [autoSyncLoop])
  | cons ev evs ih =>
    intro r hr
    have hev : eventSelectable ev = true := hsel ev (List.mem_cons_self ev evs)
    have hrest : ∀ e ∈ evs, eventSelectable e = true :=
      fun e he => hsel e (List.mem_cons_of_mem ev he)
    cases ev with
    | modClosed =>
      simp [autoSyncLoop, autoSyncStep] at hr
      rw [← hr]
      intro hc
      exact ExitKind.noConfusion hc
    | modRecv now mod =>
      simp only [autoSyncLoop, autoSyncStep] at hr
      exact ih _ hrest r hr
    | recentTick now recent =>
      simp only [autoSyncLoop, autoSyncStep] at hr
      rcases hu : Update c now recent with ⟨oe, c1⟩
      rcases oe with _ | e
      · rw [hu] at hr
        exact ih _ hrest r hr
      · rw [hu] at hr
        simp at hr
        rw [← hr]
        intro hc
        exact ExitKind.noConfusion hc
    | fullTick now resp =>
      simp only [autoSyncLoop, autoSyncStep] at hr
      rcases hu : FullSync c now resp with ⟨oe, c1⟩
      rcases oe with _ | e
      · rw [hu] at hr
        exact ih _ hrest r hr
      · rw [hu] at hr
        simp at hr
        rw [← hr]
        intro hc
        exact ExitKind.noConfusion hc
    | streamResult e =>
      exact absurd hev (by simp [eventSelectable])
    | ctxDone =>
      simp [autoSyncLoop, autoSyncStep] at hr
      rw [← hr]
      intro hc
      exact ExitKind.noConfusion hc

/-- C7 (code bug): the source contains a branch that would terminate the
loop with the live-feed session's error (helper.go:112-115), and external
cancellation and Update/FullSync errors do terminate the loop; but the
stream channel is nil (declared at helper.go:71, never made), so the
stream-error wakeup is never selectable and no feasible run of the loop
ever exits through the stream-error branch — a live-feed error is lost
instead of being returned. -/
theorem autoSync_stream_error_lost :
    (∀ c e, autoSyncStep c (LoopEvent.streamResult (some e)) =
      Sum.inr (ExitKind.streamErr, some e, c)) ∧
    (∀ c, autoSyncStep c LoopEvent.ctxDone =
      Sum.inr (ExitKind.cancelled, none, c)) ∧
    (∀ c now recent e c1, Update c now recent = (some e, c1) →
      autoSyncStep c (LoopEvent.recentTick now recent) =
        Sum.inr (ExitKind.updateErr, some e, c1)) ∧
    (∀ c now resp e c1, FullSync c now resp = (some e, c1) →
      autoSyncStep c (LoopEvent.fullTick now resp) =
        Sum.inr (ExitKind.fullSyncErr, some e, c1)) ∧
    (∀ e, eventSelectable (LoopEvent.streamResult e) = false) ∧
    (∀ c now0 resp0 events r,
      (∀ ev ∈ events, eventSelectable ev = true) →
      AutoSync c now0 resp0 events = some r → r.1 ≠ ExitKind.streamErr) := by
  refine ⟨fun c e => rfl, fun c => rfl, ?_, ?_, fun e => rfl, ?_⟩
  · intro c now recent e c1 h
    simp [autoSyncStep, h]
  · intro c now resp e c1 h
    simp [autoSyncStep, h]
  · intro c now0 resp0 events r hsel hr
    unfold AutoSync at hr
    rcases hf : FullSync c now0 resp0 with ⟨oe, c1⟩
    rcases oe with _ | e
    · rw [hf] at hr
      exact autoSyncLoop_no_stream_exit c1 events hsel r hr
    · rw [hf] at hr
      simp at hr
      rw [← hr]
      intro hc
      exact ExitKind.noConfusion hc

/-- Witness for C7's theorem: a concrete cancelled run exits through the
cancellation branch, not the stream-error branch. -/
theorem autoSync_stream_error_lost_witness :
    (ExitKind.cancelled, (none : Option Err),
      (FullSync zeroClient 0 (Except.ok [])).2).1 ≠ ExitKind.streamErr :=
  autoSync_stream_error_lost.2.2.2.2.2 zeroClient 0 (Except.ok [])
    [LoopEvent.ctxDone]
    (ExitKind.cancelled, none, (FullSync zeroClient 0 (Except.ok [])).2)
    (by decide) rfl

end SinkingYachts
